import Mathlib

/-!
Verification of the mikoto-bot robot control core.

This file gives a shallow embedding, in Lean 4, of the algorithmic core of the
mikoto-bot repository:

* `src/servo.rs` — the servo actuator layer (`Servo::set_position`),
* `src/lib.rs`  — the drive controller (`Direction::motor_direction`,
  `Mikoto::drive`, `Mikoto::drive_straight`, `Mikoto::stop`),
* `src/main.rs` — the debounce timer (`wait_until`), the geometric distance
  model (`expected_dist`) and the mission state machine (the `idle` loop).

Modelling conventions:

* Rust `u32` values are `Nat` together with the invariant `< 2^32`; the cast
  `as i32` is the explicit two's-complement reinterpretation `u32_as_i32`.
  `i32` arithmetic is modelled over `Int` with every operation's result
  wrapped back into the `i32` range by `wrap32` — the two's-complement
  semantics of a Rust release build (a debug build panics exactly where
  `wrap32` wraps).  Rust `i32` division truncates toward zero, which is
  `Int.tdiv`; the divisions here are by the constant 100 and cannot
  overflow.
* `f32`/`f64` values are modelled as real numbers; floating-point rounding is
  not modelled.  The saturating Rust cast `f32 as u32` is `f32_as_u32`.
* A Rust `Result<(), Error>` call that also mutates `self` becomes a function
  returning `Except Error Unit × State`, so that the partially mutated state
  on the error path is preserved.  A call followed by `.unwrap()` in the
  control loop becomes `Option`: `none` models the panic.
* The PWM duty register of a servo is a fixed injective-after-rounding
  function of the last command written; the `position` field records that
  last written command, which is all the claims refer to.
* The hardware timer (`CounterUs`) is an excluded collaborator; it is
  modelled by an absolute tick `now` supplied with each loop iteration, so
  that the counter value read by `wait_until` is `now - start`.  Its
  wrap-around at the `2 * us` auto-reload value is outside the modelled core.
* The external `pid` crate is not part of this repository; following the
  specification (§4.1), `Pid.next_control_output` is the proportional-only
  controller as configured in `Mikoto::new` (`ki = kd = 0`), with both the
  proportional term and the total output clamped to the configured bounds.
-/

namespace MikotoBot

open scoped Classical

/-! ### src/servo.rs -/

/-- Error type of the servo layer (`servo.rs` lines 15-21). -/
inductive Error where
  | PwmDisabled
  | InvalidPosition
deriving DecidableEq

/-- A servo motor.  `input_range` is the configured input range
(`servo.rs` line 31); `position` records the last command successfully
written to the PWM duty register (`servo.rs` lines 99-103). -/
structure Servo where
  input_range : Int × Int
  position : Int
deriving DecidableEq

/-- Range for continuous servos (`servo.rs` line 167). -/
def CONTINUOUS_RANGE : Int × Int := (-100, 100)

/-- `InputRange::rev` (`servo.rs` lines 172-176). -/
def rev (r : Int × Int) : Int × Int := (r.2, r.1)

/-- `Servo::set_position` (`servo.rs` lines 84-105): orders the ends of the
input range, rejects a position outside `[low, high]` with
`Error::InvalidPosition`, otherwise writes the corresponding duty cycle. -/
def Servo.set_position (s : Servo) (position : Int) : Except Error Servo :=
  let low := if s.input_range.1 < s.input_range.2 then s.input_range.1 else s.input_range.2
  let high := if s.input_range.1 < s.input_range.2 then s.input_range.2 else s.input_range.1
  if low ≤ position ∧ position ≤ high then
    Except.ok { s with position := position }
  else
    Except.error Error.InvalidPosition

/-! ### src/lib.rs — directions and the wheel-speed mapping -/

/-- `VeerOptions` (`lib.rs` lines 69-73): the sign of a veer. -/
inductive VeerOptions where
  | Forward
  | Backward
deriving DecidableEq

/-- The discriminant values `Forward = 1`, `Backward = -1` read by
`*direction as i32` (`lib.rs` lines 70-72, 115). -/
def VeerOptions.as_i32 : VeerOptions → Int
  | VeerOptions.Forward => 1
  | VeerOptions.Backward => -1

/-- `Direction` (`lib.rs` lines 87-101).  `percentage` is a `u32`. -/
inductive Direction where
  | Forward
  | Backward
  | Left
  | Right
  | VeerRight (direction : VeerOptions) (percentage : Nat)
  | VeerLeft (direction : VeerOptions) (percentage : Nat)
deriving DecidableEq

/-- `TryFrom<Direction> for VeerOptions` (`lib.rs` lines 75-85). -/
def VeerOptions.try_from : Direction → Except Error VeerOptions
  | Direction.Forward => Except.ok VeerOptions.Forward
  | Direction.Backward => Except.ok VeerOptions.Backward
  | _ => Except.error Error.InvalidPosition

/-- The Rust cast `u32 as i32`: two's-complement reinterpretation. -/
def u32_as_i32 (n : Nat) : Int :=
  if n < 2 ^ 31 then (n : Int) else (n : Int) - 2 ^ 32

/-- Two's-complement wrap-around of an `i32` arithmetic result into
`[-2^31, 2^31)`: what a Rust release build computes when an `i32` operation
overflows (a debug build panics there instead; on in-range values `wrap32`
is the identity). -/
def wrap32 (x : Int) : Int := (x + 2 ^ 31) % 2 ^ 32 - 2 ^ 31

/-- `Direction::motor_direction` (`lib.rs` lines 104-128): the per-wheel
signed speed triple `(front, left, right)`.  Every `i32` negation and
multiplication wraps via `wrap32`; the division is by the constant 100 and
cannot overflow — Rust `i32` division truncates toward zero, hence
`Int.tdiv`. -/
def Direction.motor_direction (d : Direction) (speed : Nat) : Int × Int × Int :=
  let s := u32_as_i32 speed
  match d with
  | Direction.Forward => (s, s, s)
  | Direction.Backward => (wrap32 (-s), wrap32 (-s), wrap32 (-s))
  | Direction.Left => (0, wrap32 (-s), s)
  | Direction.Right => (0, s, wrap32 (-s))
  | Direction.VeerRight dir p =>
      (wrap32 (dir.as_i32 * s), wrap32 (dir.as_i32 * s),
        Int.tdiv (wrap32 (wrap32 (dir.as_i32 * s) * wrap32 (100 - u32_as_i32 p))) 100)
  | Direction.VeerLeft dir p =>
      (wrap32 (dir.as_i32 * s),
        Int.tdiv (wrap32 (wrap32 (dir.as_i32 * s) * wrap32 (100 - u32_as_i32 p))) 100,
        wrap32 (dir.as_i32 * s))

/-! ### src/lib.rs — the Mikoto drive controller -/

/-- Configuration of the external `pid` crate controller as used by
`Mikoto` (`lib.rs` lines 163-167): setpoint, proportional gain, proportional
term limit and total output limit. -/
structure Pid where
  setpoint : ℝ
  kp : ℝ
  p_limit : ℝ
  output_limit : ℝ

/-- Modelled from the spec: the `pid` crate's limit application — the spec
(§4.1) requires the controller output "clamped to a configured output bound".
The crate itself is an external dependency, not part of this repository. -/
noncomputable def apply_limit (limit value : ℝ) : ℝ :=
  max (-limit) (min limit value)

/-- Modelled from the spec: `Pid::next_control_output` of the external `pid`
crate restricted to the configuration installed by `Mikoto::new`
(`ki = kd = 0`, so the integral and derivative terms vanish and the
controller is stateless): `error = setpoint - measurement`, proportional term
`error * kp` clamped to `±p_limit`, total output clamped to
`±output_limit`. -/
noncomputable def Pid.next_control_output (pid : Pid) (measurement : ℝ) : ℝ :=
  apply_limit pid.output_limit (apply_limit pid.p_limit ((pid.setpoint - measurement) * pid.kp))

/-- The `Mikoto` robot (`lib.rs` lines 62-67): three wheel servos and the
PID controller. -/
structure Mikoto where
  front_wheel : Servo
  left_wheel : Servo
  right_wheel : Servo
  pid : Pid

/-- The sequential wheel writes of `Mikoto::drive` (`lib.rs` lines 188-193):
front, then left, then right, propagating the first servo error with `?`
(which leaves the remaining wheels untouched). -/
def Mikoto.apply_wheels (m : Mikoto) (direction : Direction) (speed : Nat) :
    Except Error Unit × Mikoto :=
  let c := direction.motor_direction speed
  match m.front_wheel.set_position c.1 with
  | Except.error e => (Except.error e, m)
  | Except.ok fw =>
    let m1 : Mikoto := { m with front_wheel := fw }
    match m1.left_wheel.set_position c.2.1 with
    | Except.error e => (Except.error e, m1)
    | Except.ok lw =>
      let m2 : Mikoto := { m1 with left_wheel := lw }
      match m2.right_wheel.set_position c.2.2 with
      | Except.error e => (Except.error e, m2)
      | Except.ok rw => (Except.ok (), { m2 with right_wheel := rw })

/-- `Mikoto::drive` (`lib.rs` lines 177-194): validates a veer percentage
against `0..=100` (on `u32` this is `p ≤ 100`), then performs the three
wheel writes. -/
def Mikoto.drive (m : Mikoto) (direction : Direction) (speed : Nat) :
    Except Error Unit × Mikoto :=
  match direction with
  | Direction.VeerRight _ p =>
      if p ≤ 100 then m.apply_wheels direction speed
      else (Except.error Error.InvalidPosition, m)
  | Direction.VeerLeft _ p =>
      if p ≤ 100 then m.apply_wheels direction speed
      else (Except.error Error.InvalidPosition, m)
  | _ => m.apply_wheels direction speed

/-- `Mikoto::stop` (`lib.rs` lines 233-235). -/
def Mikoto.stop (m : Mikoto) : Except Error Unit × Mikoto :=
  m.drive Direction.Forward 0

/-- The saturating Rust cast `f32 as u32`: truncation toward zero, negative
values to `0`, saturation at `u32::MAX`. -/
noncomputable def f32_as_u32 (x : ℝ) : Nat :=
  min (Int.toNat ⌊x⌋) (2 ^ 32 - 1)

/-- `Mikoto::drive_straight` (`lib.rs` lines 196-231): feeds the heading
error into the PID controller; output below `-0.5` veers left with
percentage `65 + (-1.0 * output) as u32`, output above `0.5` veers right
with percentage `75 + output as u32`, otherwise drives `direction`
unchanged.  `VeerOptions::try_from(direction)?` is evaluated before the
inner `drive` call, so its error returns with the wheels untouched. -/
noncomputable def Mikoto.drive_straight (m : Mikoto) (current_yaw desired_angle : ℝ)
    (direction : Direction) (speed : Nat) : Except Error Unit × Mikoto :=
  let output := m.pid.next_control_output (current_yaw - desired_angle)
  if output < -0.5 then
    match VeerOptions.try_from direction with
    | Except.error e => (Except.error e, m)
    | Except.ok vo => m.drive (Direction.VeerLeft vo (65 + f32_as_u32 (-1 * output))) speed
  else if output > 0.5 then
    match VeerOptions.try_from direction with
    | Except.error e => (Except.error e, m)
    | Except.ok vo => m.drive (Direction.VeerRight vo (75 + f32_as_u32 output)) speed
  else
    m.drive direction speed

/-- The PID controller installed by `Mikoto::new` (`lib.rs` lines 163-164):
`Pid::new(0.0, 25.0)` then `pid.p(10.0 * (180.0 / PI), 25.0)`. -/
noncomputable def mikoto_pid : Pid :=
  { setpoint := 0, kp := 10 * (180 / Real.pi), p_limit := 25, output_limit := 25 }

/-- The robot as built by `Mikoto::new` (`lib.rs` lines 131-175): front and
right wheels use the reversed continuous range, the left wheel the plain
one; every wheel starts at its zero position. -/
noncomputable def mikoto_init : Mikoto :=
  { front_wheel := { input_range := rev CONTINUOUS_RANGE, position := 0 }
    left_wheel := { input_range := CONTINUOUS_RANGE, position := 0 }
    right_wheel := { input_range := rev CONTINUOUS_RANGE, position := 0 }
    pid := mikoto_pid }

/-- The configuration invariant established by `Mikoto::new` and never
mutated afterwards: the wheel input ranges span `[-100, 100]` (front and
right reversed) and the PID controller is the constructed one. -/
def Mikoto.as_constructed (m : Mikoto) : Prop :=
  m.front_wheel.input_range = (100, -100) ∧
  m.left_wheel.input_range = (-100, 100) ∧
  m.right_wheel.input_range = (100, -100) ∧
  m.pid = mikoto_pid

/-- A wheel command within the continuous-servo input range. -/
def in_range (x : Int) : Prop := -100 ≤ x ∧ x ≤ 100

instance (x : Int) : Decidable (in_range x) :=
  inferInstanceAs (Decidable (-100 ≤ x ∧ x ≤ 100))

/-- The veer-percentage validation performed by `Mikoto::drive`
(`lib.rs` lines 178-186): trivially satisfied by non-veer directions. -/
def percentage_ok : Direction → Prop
  | Direction.VeerRight _ p => p ≤ 100
  | Direction.VeerLeft _ p => p ≤ 100
  | _ => True

/-! ### src/main.rs — the debounce timer -/

/-- The debounce-timer state: the `c_started` flag together with the tick at
which the hardware counter was started (`main.rs` lines 159, 370-384).  The
counter value read back at absolute tick `now` is `now - start`. -/
structure CounterState where
  started : Bool
  start : Nat
deriving DecidableEq

/-- `wait_until` (`main.rs` lines 370-384): if the timer is not armed, start
the counter (at `now`), set the flag and return `false`; if armed, return
`true` and disarm once the counter value exceeds `us` (strictly), otherwise
return `false`. -/
def wait_until (now : Nat) (st : CounterState) (us : Nat) : Bool × CounterState :=
  if st.started = false then
    (false, { started := true, start := now })
  else if now - st.start > us then
    (true, { started := false, start := st.start })
  else
    (false, st)

/-! ### src/main.rs — the geometric distance model -/

/-- Distance of the time-of-flight sensor from the robot's back, mm
(`main.rs` line 389). -/
def TOF_DIST_FROM_BACK : ℝ := 100

/-- Course width, mm (`main.rs` line 390). -/
def COURSE_WIDTH : ℝ := 2370

/-- Course length, mm (`main.rs` line 391). -/
def COURSE_LENGTH : ℝ := 2100

/-- Ramp length, mm (`main.rs` line 393). -/
def RAMP_LENGTH : ℝ := 1424

/-- Ramp width, mm (`main.rs` line 394). -/
def RAMP_WIDTH : ℝ := 318

/-- `CORNER_ANGLE` (`main.rs` line 398): heading beyond which the side
border, not the rear border, is in line of sight. -/
noncomputable def CORNER_ANGLE : ℝ := Real.arctan ((COURSE_WIDTH / 2) / COURSE_LENGTH)

/-- `RAMP_ANGLE` (`main.rs` lines 399-400): heading beyond which the ramp is
in line of sight. -/
noncomputable def RAMP_ANGLE : ℝ :=
  Real.pi / 2 - Real.arctan (RAMP_LENGTH / (COURSE_WIDTH / 2 - RAMP_WIDTH))

/-- The rear-border arm of `expected_dist` (`main.rs` lines 413-418), as a
function of `theta = |angle|`. -/
noncomputable def rear_branch (theta : ℝ) : ℝ :=
  COURSE_LENGTH / Real.cos theta - TOF_DIST_FROM_BACK

/-- The side-border arm of `expected_dist` (`main.rs` lines 409-412), as a
function of `theta = |angle|` (the code replaces `theta` by `90° - theta`
before dividing). -/
noncomputable def side_branch (theta : ℝ) : ℝ :=
  (COURSE_WIDTH / 2) / Real.cos (Real.pi / 2 - theta) - TOF_DIST_FROM_BACK

/-- The ramp arm of `expected_dist` (`main.rs` lines 405-408), as a function
of `theta = |angle|`. -/
noncomputable def ramp_branch (theta : ℝ) : ℝ :=
  (COURSE_WIDTH / 2 - RAMP_WIDTH) / Real.cos (Real.pi / 2 - theta) - TOF_DIST_FROM_BACK

/-- `expected_dist` (`main.rs` lines 387-419).  Note that the first test
compares the signed `angle.value()` — not `theta = |angle|` — against
`RAMP_ANGLE`. -/
noncomputable def expected_dist (angle : ℝ) : ℝ :=
  if angle > RAMP_ANGLE then ramp_branch |angle|
  else if |angle| > CORNER_ANGLE then side_branch |angle|
  else rear_branch |angle|

/-! ### src/main.rs — the mission state machine -/

/-- `Task` (`main.rs` lines 41-50). -/
inductive Task where
  | WaitForButton
  | ApproachWall
  | ClimbUp
  | ClimbOver
  | ClimbDown
  | FindPole
  | ApproachPole
deriving DecidableEq

/-- `Scan` (`main.rs` lines 170-174). -/
inductive Scan where
  | Stop
  | Left
  | Right
deriving DecidableEq

/-- One tick's sensor inputs: the gyro reading (radians; the code's
mounting-correction block at `main.rs` lines 181-186 passes the values
through unchanged), the time-of-flight range in mm, and the absolute tick of
the hardware counter. -/
structure Inputs where
  yaw : ℝ
  pitch : ℝ
  roll : ℝ
  distance : Nat
  now : Nat

/-- The state owned by the `idle` control loop (`main.rs` lines 142-177):
the shared task, the robot, the debounce timer, and the per-mission scratch
variables.  `on_pole_base` is recomputed from the sensors before every use
(`main.rs` lines 310-315) and so is not part of the carried state. -/
structure AppState where
  task : Task
  mikoto : Mikoto
  counter : CounterState
  offset_angle : ℝ
  stop_pole_base : Bool
  pole_zero_pitch : ℝ
  pole_zero_roll : ℝ
  scan_pause : Bool
  scan : Scan

/-- `f32::to_degrees`. -/
noncomputable def to_degrees (x : ℝ) : ℝ := x * (180 / Real.pi)

/-- `f32::to_radians`. -/
noncomputable def to_radians (x : ℝ) : ℝ := x * (Real.pi / 180)

/-- Distance (mm) from the wall within which anomalies are ignored
(`main.rs` line 154). -/
def BUFFER : ℝ := 250

/-- Scan angle limit in degrees (`main.rs` line 157). -/
def SCAN_ANGLE : ℝ := 80

/-- `Task::WaitForButton` tick (`main.rs` lines 195-197): stop, unwrapping
the result (`none` models the panic on a drive error). -/
noncomputable def step_wait_for_button (st : AppState) : Option AppState :=
  match st.mikoto.stop with
  | (Except.error _, _) => none
  | (Except.ok _, m) => some { st with mikoto := m }

/-- `Task::ApproachWall` tick (`main.rs` lines 198-217): transition to
`ClimbUp` once pitch reaches 60°, then drive — with yaw correction while the
pitch is within 5° of level, plain forward otherwise. -/
noncomputable def step_approach_wall (inp : Inputs) (st : AppState) : Option AppState :=
  let st1 := if to_degrees inp.pitch ≥ 60 then { st with task := Task.ClimbUp } else st
  if to_degrees inp.pitch ≤ 5 then
    match st1.mikoto.drive_straight inp.yaw (to_radians st1.offset_angle) Direction.Forward 100 with
    | (Except.error _, _) => none
    | (Except.ok _, m) => some { st1 with mikoto := m }
  else
    match st1.mikoto.drive Direction.Forward 100 with
    | (Except.error _, _) => none
    | (Except.ok _, m) => some { st1 with mikoto := m }

/-- `Task::ClimbUp` tick (`main.rs` lines 218-228): drive forward; once
pitch falls to 45°, debounce for 500 ms before moving to `ClimbOver`. -/
noncomputable def step_climb_up (inp : Inputs) (st : AppState) : Option AppState :=
  match st.mikoto.drive Direction.Forward 100 with
  | (Except.error _, _) => none
  | (Except.ok _, m) =>
    let st1 := { st with mikoto := m }
    if to_degrees inp.pitch ≤ 45 then
      let w := wait_until inp.now st1.counter 500000
      some { st1 with counter := w.2, task := if w.1 then Task.ClimbOver else st1.task }
    else
      some st1

/-- `Task::ClimbOver` tick (`main.rs` lines 229-243): creep at speed 15 once
nosing down past -45°, else full speed; once pitch falls to -75°, debounce
for 1500 ms before moving to `ClimbDown`. -/
noncomputable def step_climb_over (inp : Inputs) (st : AppState) : Option AppState :=
  let d := if to_degrees inp.pitch ≤ -45 then st.mikoto.drive Direction.Forward 15
           else st.mikoto.drive Direction.Forward 100
  match d with
  | (Except.error _, _) => none
  | (Except.ok _, m) =>
    let st1 := { st with mikoto := m }
    if to_degrees inp.pitch ≤ -75 then
      let w := wait_until inp.now st1.counter 1500000
      some { st1 with counter := w.2, task := if w.1 then Task.ClimbDown else st1.task }
    else
      some st1

/-- `Task::ClimbDown` tick (`main.rs` lines 244-254): drive forward; once
pitch rises back to -10°, debounce for 800 ms before moving to
`FindPole`. -/
noncomputable def step_climb_down (inp : Inputs) (st : AppState) : Option AppState :=
  match st.mikoto.drive Direction.Forward 100 with
  | (Except.error _, _) => none
  | (Except.ok _, m) =>
    let st1 := { st with mikoto := m }
    if to_degrees inp.pitch ≥ -10 then
      let w := wait_until inp.now st1.counter 800000
      some { st1 with counter := w.2, task := if w.1 then Task.FindPole else st1.task }
    else
      some st1

/-- `Task::FindPole` tick (`main.rs` lines 255-304): sweep left and right
between `±SCAN_ANGLE`, comparing the live range reading to the geometric
model; on an anomaly, pause, capture the heading and pitch/roll
zero-references and move to `ApproachPole`. -/
noncomputable def step_find_pole (inp : Inputs) (st : AppState) : Option AppState :=
  match st.scan with
  | Scan.Stop =>
    match st.mikoto.stop with
    | (Except.error _, _) => none
    | (Except.ok _, m) =>
      let st1 := { st with mikoto := m }
      if st1.scan_pause then
        let w := wait_until inp.now st1.counter 500000
        if w.1 then
          some { st1 with
                  counter := w.2
                  offset_angle := to_degrees inp.yaw
                  pole_zero_pitch := to_degrees inp.pitch
                  pole_zero_roll := to_degrees inp.roll
                  scan_pause := false
                  task := Task.ApproachPole }
        else
          some { st1 with counter := w.2 }
      else
        some { st1 with scan := Scan.Left }
  | Scan.Left =>
    match st.mikoto.drive Direction.Left 5 with
    | (Except.error _, _) => none
    | (Except.ok _, m) =>
      let st1 := { st with mikoto := m }
      if to_degrees inp.yaw ≤ -SCAN_ANGLE then
        some { st1 with scan := Scan.Right }
      else if (inp.distance : ℝ) ≤ expected_dist inp.yaw - BUFFER then
        some { st1 with scan := Scan.Stop, scan_pause := true }
      else
        some st1
  | Scan.Right =>
    match st.mikoto.drive Direction.Right 5 with
    | (Except.error _, _) => none
    | (Except.ok _, m) =>
      let st1 := { st with mikoto := m }
      if to_degrees inp.yaw ≥ SCAN_ANGLE then
        some { st1 with scan := Scan.Left }
      else if (inp.distance : ℝ) ≤ expected_dist inp.yaw - BUFFER then
        some { st1 with scan := Scan.Stop, scan_pause := true }
      else
        some st1

/-- `Task::ApproachPole` tick (`main.rs` lines 305-365).  The pitch
deviation from the captured zero-reference is debounced through `wait_until`
with explicit cancellation when it disappears; the roll deviation sets
`stop_pole_base` immediately ("Do not debounce roll stop condition",
`main.rs` line 339).  A detected pole (`distance < 150`) or a set
`stop_pole_base` stops the wheels; the stop is confirmed either immediately
(pole detected; the Rust `||` short-circuits past `wait_until`) or after a
further 250 ms, completing the mission; otherwise the robot drives on
straight toward the captured heading. -/
noncomputable def step_approach_pole (inp : Inputs) (st : AppState) : Option AppState :=
  let found_pole := inp.distance < 150
  let on_pitch := to_degrees inp.pitch > st.pole_zero_pitch + 2
  let on_roll := |to_degrees inp.roll - st.pole_zero_roll| ≥ 3
  let pd : CounterState × Bool :=
    if on_pitch then
      let w := wait_until inp.now st.counter 250000
      (w.2, st.stop_pole_base || w.1)
    else if st.counter.started then
      ({ started := false, start := st.counter.start }, st.stop_pole_base)
    else
      (st.counter, st.stop_pole_base)
  let spb := if on_roll then true else pd.2
  if found_pole || spb then
    match st.mikoto.stop with
    | (Except.error _, _) => none
    | (Except.ok _, m) =>
      let g : Bool × CounterState :=
        if found_pole then (true, pd.1) else wait_until inp.now pd.1 250000
      if g.1 then
        if found_pole || on_pitch || on_roll then
          some { st with
                  mikoto := m
                  counter := g.2
                  offset_angle := 0
                  stop_pole_base := false
                  task := Task.WaitForButton }
        else
          some { st with mikoto := m, counter := g.2, stop_pole_base := false }
      else
        some { st with mikoto := m, counter := g.2, stop_pole_base := spb }
  else
    match st.mikoto.drive_straight inp.yaw (to_radians st.offset_angle) Direction.Forward 100 with
    | (Except.error _, _) => none
    | (Except.ok _, m) => some { st with mikoto := m, counter := pd.1, stop_pole_base := spb }

/-- One iteration of the `idle` control loop (`main.rs` lines 179-367):
dispatch on the current task.  `none` models a panic from an `.unwrap()` on
a failed drive call. -/
noncomputable def step (inp : Inputs) (st : AppState) : Option AppState :=
  match st.task with
  | Task.WaitForButton => step_wait_for_button st
  | Task.ApproachWall => step_approach_wall inp st
  | Task.ClimbUp => step_climb_up inp st
  | Task.ClimbOver => step_climb_over inp st
  | Task.ClimbDown => step_climb_down inp st
  | Task.FindPole => step_find_pole inp st
  | Task.ApproachPole => step_approach_pole inp st

/-- A robot whose front wheel was configured with input range `(5, 10)`:
`set_position(0)` fails, so every drive call of the mission loop fails.
This is the (only) kind of state in which a mission tick's drive call can
return an error. -/
noncomputable def bad_wheel_mikoto : Mikoto :=
  { front_wheel := { input_range := (5, 10), position := 0 }
    left_wheel := { input_range := CONTINUOUS_RANGE, position := 0 }
    right_wheel := { input_range := rev CONTINUOUS_RANGE, position := 0 }
    pid := mikoto_pid }

/-- A `WaitForButton` tick state over `bad_wheel_mikoto`. -/
noncomputable def bad_wheel_state : AppState :=
  { task := Task.WaitForButton, mikoto := bad_wheel_mikoto
    counter := { started := false, start := 0 }, offset_angle := 0
    stop_pole_base := false, pole_zero_pitch := 0, pole_zero_roll := 0
    scan_pause := false, scan := Scan.Stop }

/-- A correctly constructed robot currently driving (all wheels at command
50), so that a stop is visible as a state change. -/
noncomputable def rolling_mikoto : Mikoto :=
  { front_wheel := { input_range := rev CONTINUOUS_RANGE, position := 50 }
    left_wheel := { input_range := CONTINUOUS_RANGE, position := 50 }
    right_wheel := { input_range := rev CONTINUOUS_RANGE, position := 50 }
    pid := mikoto_pid }

/-- An `ApproachPole` tick state: pitch/roll zero-references captured at 0,
debounce timer unarmed, no stop pending. -/
noncomputable def approach_pole_state : AppState :=
  { task := Task.ApproachPole, mikoto := rolling_mikoto
    counter := { started := false, start := 0 }, offset_angle := 0
    stop_pole_base := false, pole_zero_pitch := 0, pole_zero_roll := 0
    scan_pause := false, scan := Scan.Stop }

/-! ## Helper lemmas -/

theorem u32_as_i32_of_lt {n : Nat} (h : n < 2 ^ 31) : u32_as_i32 n = n := if_pos h

theorem wrap32_id {x : Int} (h1 : -(2 ^ 31) ≤ x) (h2 : x < 2 ^ 31) : wrap32 x = x := by
  unfold wrap32
  have h3 : (x + 2 ^ 31) % 2 ^ 32 = x + 2 ^ 31 :=
    Int.emod_eq_of_lt (by omega) (by omega)
  omega

theorem tdiv_100_bounds (a : Int) (h1 : -10000 ≤ a) (h2 : a ≤ 10000) :
    -100 ≤ Int.tdiv a 100 ∧ Int.tdiv a 100 ≤ 100 := by
  rcases le_or_lt 0 a with h | h
  · obtain ⟨n, rfl⟩ := Int.eq_ofNat_of_zero_le h
    rw [show ((100 : Int)) = ((100 : Nat) : Int) by norm_num, ← Int.ofNat_tdiv]
    have hn : n ≤ 10000 := by exact_mod_cast h2
    have hd : n / 100 ≤ 100 := by omega
    constructor
    · have : (0 : Int) ≤ ((n / 100 : Nat) : Int) := by positivity
      omega
    · exact_mod_cast hd
  · obtain ⟨n, rfl⟩ : ∃ n : Nat, a = -(n : Int) := ⟨a.natAbs, by omega⟩
    rw [Int.neg_tdiv, show ((100 : Int)) = ((100 : Nat) : Int) by norm_num, ← Int.ofNat_tdiv]
    have hn : n ≤ 10000 := by omega
    have hd : n / 100 ≤ 100 := by omega
    have hc : ((n / 100 : Nat) : Int) ≤ 100 := by exact_mod_cast hd
    have hc0 : (0 : Int) ≤ ((n / 100 : Nat) : Int) := by positivity
    omega

theorem set_position_cont_ok {s : Servo}
    (h : s.input_range = (100, -100) ∨ s.input_range = (-100, 100)) {x : Int}
    (h1 : -100 ≤ x) (h2 : x ≤ 100) :
    s.set_position x = Except.ok { s with position := x } := by
  rcases h with h | h <;> simp [Servo.set_position, h, h1, h2]

theorem set_position_cont_err {s : Servo}
    (h : s.input_range = (100, -100) ∨ s.input_range = (-100, 100)) {x : Int}
    (hx : ¬ in_range x) :
    s.set_position x = Except.error Error.InvalidPosition := by
  have hx' : ¬ (-100 ≤ x ∧ x ≤ 100) := hx
  rcases h with h | h <;> simp [Servo.set_position, h, hx']

theorem apply_wheels_ok {m : Mikoto} (hm : m.as_constructed) {d : Direction} {s : Nat}
    (h1 : in_range (d.motor_direction s).1) (h2 : in_range (d.motor_direction s).2.1)
    (h3 : in_range (d.motor_direction s).2.2) :
    m.apply_wheels d s =
      (Except.ok (),
        { m with
            front_wheel := { m.front_wheel with position := (d.motor_direction s).1 }
            left_wheel := { m.left_wheel with position := (d.motor_direction s).2.1 }
            right_wheel := { m.right_wheel with position := (d.motor_direction s).2.2 } }) := by
  obtain ⟨hf, hl, hr, _⟩ := hm
  simp only [Mikoto.apply_wheels,
    set_position_cont_ok (Or.inl hf) h1.1 h1.2,
    set_position_cont_ok (Or.inr hl) h2.1 h2.2,
    set_position_cont_ok (Or.inl hr) h3.1 h3.2]

theorem apply_wheels_err_front {m : Mikoto} (hm : m.as_constructed) {d : Direction} {s : Nat}
    (h : ¬ in_range (d.motor_direction s).1) :
    m.apply_wheels d s = (Except.error Error.InvalidPosition, m) := by
  obtain ⟨hf, _, _, _⟩ := hm
  simp only [Mikoto.apply_wheels, set_position_cont_err (Or.inl hf) h]

theorem apply_wheels_err_left {m : Mikoto} (hm : m.as_constructed) {d : Direction} {s : Nat}
    (h1 : in_range (d.motor_direction s).1) (h : ¬ in_range (d.motor_direction s).2.1) :
    m.apply_wheels d s =
      (Except.error Error.InvalidPosition,
        { m with front_wheel := { m.front_wheel with position := (d.motor_direction s).1 } }) := by
  obtain ⟨hf, hl, _, _⟩ := hm
  simp only [Mikoto.apply_wheels,
    set_position_cont_ok (Or.inl hf) h1.1 h1.2,
    set_position_cont_err (Or.inr hl) h]

theorem apply_wheels_err_right {m : Mikoto} (hm : m.as_constructed) {d : Direction} {s : Nat}
    (h1 : in_range (d.motor_direction s).1) (h2 : in_range (d.motor_direction s).2.1)
    (h : ¬ in_range (d.motor_direction s).2.2) :
    m.apply_wheels d s =
      (Except.error Error.InvalidPosition,
        { m with
            front_wheel := { m.front_wheel with position := (d.motor_direction s).1 }
            left_wheel := { m.left_wheel with position := (d.motor_direction s).2.1 } }) := by
  obtain ⟨hf, hl, hr, _⟩ := hm
  simp only [Mikoto.apply_wheels,
    set_position_cont_ok (Or.inl hf) h1.1 h1.2,
    set_position_cont_ok (Or.inr hl) h2.1 h2.2,
    set_position_cont_err (Or.inl hr) h]

theorem drive_eq_apply_wheels {m : Mikoto} {d : Direction} {s : Nat} (hp : percentage_ok d) :
    m.drive d s = m.apply_wheels d s := by
  cases d with
  | VeerRight v p => simp only [Mikoto.drive]; exact if_pos (show p ≤ 100 from hp)
  | VeerLeft v p => simp only [Mikoto.drive]; exact if_pos (show p ≤ 100 from hp)
  | Forward => rfl
  | Backward => rfl
  | Left => rfl
  | Right => rfl

theorem drive_invalid_percentage {m : Mikoto} {d : Direction} {s : Nat}
    (hp : ¬ percentage_ok d) :
    m.drive d s = (Except.error Error.InvalidPosition, m) := by
  cases d with
  | VeerRight v p => simp only [Mikoto.drive]; exact if_neg (show ¬ p ≤ 100 from hp)
  | VeerLeft v p => simp only [Mikoto.drive]; exact if_neg (show ¬ p ≤ 100 from hp)
  | Forward => exact absurd trivial hp
  | Backward => exact absurd trivial hp
  | Left => exact absurd trivial hp
  | Right => exact absurd trivial hp

theorem drive_ok_of_in_range {m : Mikoto} (hm : m.as_constructed) {d : Direction} {s : Nat}
    (hp : percentage_ok d)
    (h1 : in_range (d.motor_direction s).1) (h2 : in_range (d.motor_direction s).2.1)
    (h3 : in_range (d.motor_direction s).2.2) :
    m.drive d s =
      (Except.ok (),
        { m with
            front_wheel := { m.front_wheel with position := (d.motor_direction s).1 }
            left_wheel := { m.left_wheel with position := (d.motor_direction s).2.1 }
            right_wheel := { m.right_wheel with position := (d.motor_direction s).2.2 } }) := by
  rw [drive_eq_apply_wheels hp]
  exact apply_wheels_ok hm h1 h2 h3

theorem in_range_motor_basic {s : Nat} (hs : s ≤ 100) (d : Direction)
    (hd : d = Direction.Forward ∨ d = Direction.Backward ∨ d = Direction.Left ∨
      d = Direction.Right) :
    in_range (d.motor_direction s).1 ∧ in_range (d.motor_direction s).2.1 ∧
      in_range (d.motor_direction s).2.2 := by
  have hcast : u32_as_i32 s = s := u32_as_i32_of_lt (by omega)
  have hw : wrap32 (-(s : Int)) = -(s : Int) := wrap32_id (by omega) (by omega)
  rcases hd with rfl | rfl | rfl | rfl <;>
    simp only [Direction.motor_direction, hcast, hw, in_range] <;> omega

theorem in_range_motor_veer {v : VeerOptions} {p s : Nat} (hp : p ≤ 100) (hs : s ≤ 100)
    (d : Direction)
    (hd : d = Direction.VeerLeft v p ∨ d = Direction.VeerRight v p) :
    in_range (d.motor_direction s).1 ∧ in_range (d.motor_direction s).2.1 ∧
      in_range (d.motor_direction s).2.2 := by
  have hcast : u32_as_i32 s = s := u32_as_i32_of_lt (by omega)
  have hcp : u32_as_i32 p = p := u32_as_i32_of_lt (by omega)
  have hkey : (0 : Int) ≤ (s : Int) * (100 - (p : Int)) ∧
      (s : Int) * (100 - (p : Int)) ≤ 10000 := by
    constructor
    · exact mul_nonneg (by positivity) (by omega)
    · calc (s : Int) * (100 - (p : Int)) ≤ 100 * 100 :=
          mul_le_mul (by omega) (by omega) (by omega) (by norm_num)
      _ = 10000 := by norm_num
  obtain ⟨b1, b2⟩ := tdiv_100_bounds ((s : Int) * (100 - (p : Int))) (by omega) (by omega)
  obtain ⟨c1, c2⟩ := tdiv_100_bounds (-((s : Int) * (100 - (p : Int)))) (by omega) (by omega)
  have hw100 : wrap32 (100 - (p : Int)) = 100 - (p : Int) := wrap32_id (by omega) (by omega)
  have hws : wrap32 ((s : Int)) = s := wrap32_id (by omega) (by omega)
  have hwns : wrap32 (-(s : Int)) = -(s : Int) := wrap32_id (by omega) (by omega)
  have hwp : wrap32 ((s : Int) * (100 - (p : Int))) = (s : Int) * (100 - (p : Int)) :=
    wrap32_id (by omega) (by omega)
  have hwnp : wrap32 (-((s : Int) * (100 - (p : Int)))) = -((s : Int) * (100 - (p : Int))) :=
    wrap32_id (by omega) (by omega)
  rcases hd with rfl | rfl <;> cases v <;>
    simp only [Direction.motor_direction, hcast, hcp, VeerOptions.as_i32,
      one_mul, neg_one_mul, hw100, hws, hwns, neg_mul, hwp, hwnp, in_range] <;>
    refine ⟨⟨?_, ?_⟩, ⟨?_, ?_⟩, ⟨?_, ?_⟩⟩ <;> omega

theorem stop_ok {m : Mikoto} (hm : m.as_constructed) :
    m.stop =
      (Except.ok (),
        { m with
            front_wheel := { m.front_wheel with position := 0 }
            left_wheel := { m.left_wheel with position := 0 }
            right_wheel := { m.right_wheel with position := 0 } }) := by
  have h := drive_ok_of_in_range hm (d := Direction.Forward) (s := 0) trivial
    (by simp [Direction.motor_direction, u32_as_i32, in_range])
    (by simp [Direction.motor_direction, u32_as_i32, in_range])
    (by simp [Direction.motor_direction, u32_as_i32, in_range])
  simpa [Mikoto.stop, Direction.motor_direction, u32_as_i32] using h

/-! ## C1 — the direction-to-wheel-speed mapping table -/

/-- C1 counterexample: the mapping table fails for speeds whose `i32` veer
product overflows.  At the valid `u32` speed `100000000` with
`VeerLeft{Forward, 0}` the table demands a left-wheel command of
`signed_speed * (100 - 0) / 100 = 100000000`, but the `i32` product
`100000000 * 100` wraps to `1410065408` (a debug build panics), so
`motor_direction` returns `14100654` there. -/
theorem C1_motor_direction_overflow_counterexample :
    Direction.motor_direction (Direction.VeerLeft VeerOptions.Forward 0) 100000000 =
      (100000000, 14100654, 100000000) ∧
    (14100654 : Int) ≠
      Int.tdiv (VeerOptions.Forward.as_i32 * u32_as_i32 100000000 * (100 - (0 : Int))) 100 := by
  decide

/-- C1 amended: for every `Direction` variant, every percentage `≤ 100` and
every `u32` speed in the overflow-free region `speed ≤ 21474836` (the
largest speed for which the `i32` product `speed * (100 - percentage)`
cannot exceed `i32::MAX`; with `s` the `i32` reinterpretation of the
speed), `motor_direction` returns exactly the triple of the spec's mapping
table: Forward `(s, s, s)`; Backward `(-s, -s, -s)`; Left `(0, -s, s)`;
Right `(0, s, -s)`; the veer variants run two wheels at the signed speed
`v * s` and reduce the biased side's wheel to
`v * s * (100 - percentage) / 100` (truncating division), the right wheel
for `VeerRight` and the left wheel for `VeerLeft`.  Beyond that region the
`i32` arithmetic wraps (release) or panics (debug). -/
theorem C1_motor_direction_table (speed p : Nat) (v : VeerOptions)
    (hspeed : speed ≤ 21474836) (hp : p ≤ 100) :
    Direction.motor_direction Direction.Forward speed =
      (u32_as_i32 speed, u32_as_i32 speed, u32_as_i32 speed) ∧
    Direction.motor_direction Direction.Backward speed =
      (-u32_as_i32 speed, -u32_as_i32 speed, -u32_as_i32 speed) ∧
    Direction.motor_direction Direction.Left speed =
      (0, -u32_as_i32 speed, u32_as_i32 speed) ∧
    Direction.motor_direction Direction.Right speed =
      (0, u32_as_i32 speed, -u32_as_i32 speed) ∧
    Direction.motor_direction (Direction.VeerRight v p) speed =
      (v.as_i32 * u32_as_i32 speed, v.as_i32 * u32_as_i32 speed,
        Int.tdiv (v.as_i32 * u32_as_i32 speed * (100 - (p : Int))) 100) ∧
    Direction.motor_direction (Direction.VeerLeft v p) speed =
      (v.as_i32 * u32_as_i32 speed,
        Int.tdiv (v.as_i32 * u32_as_i32 speed * (100 - (p : Int))) 100,
        v.as_i32 * u32_as_i32 speed) := by
  have hcast : u32_as_i32 speed = speed := u32_as_i32_of_lt (by omega)
  have hcp : u32_as_i32 p = p := u32_as_i32_of_lt (by omega)
  have hprod : (0 : Int) ≤ (speed : Int) * (100 - (p : Int)) ∧
      (speed : Int) * (100 - (p : Int)) ≤ 2147483600 := by
    constructor
    · exact mul_nonneg (by positivity) (by omega)
    · calc (speed : Int) * (100 - (p : Int)) ≤ 21474836 * 100 :=
          mul_le_mul (by omega) (by omega) (by omega) (by norm_num)
      _ = 2147483600 := by norm_num
  have hneg : wrap32 (-(speed : Int)) = -(speed : Int) := wrap32_id (by omega) (by omega)
  have hw100 : wrap32 (100 - (p : Int)) = 100 - (p : Int) := wrap32_id (by omega) (by omega)
  have hws : wrap32 ((speed : Int)) = speed := wrap32_id (by omega) (by omega)
  have hwp : wrap32 ((speed : Int) * (100 - (p : Int))) =
      (speed : Int) * (100 - (p : Int)) := wrap32_id (by omega) (by omega)
  have hwnp : wrap32 (-((speed : Int) * (100 - (p : Int)))) =
      -((speed : Int) * (100 - (p : Int))) := wrap32_id (by omega) (by omega)
  refine ⟨rfl, ?_, ?_, ?_, ?_, ?_⟩ <;> cases v <;>
    simp only [Direction.motor_direction, hcast, hcp, VeerOptions.as_i32,
      one_mul, neg_one_mul, hneg, hw100, hws, neg_mul, hwp, hwnp]

/-- Witness for C1 at speed 50, `VeerRight Backward 30`:
`(-50, -50, -50 * 70 / 100) = (-50, -50, -35)`. -/
theorem C1_motor_direction_table_witness :
    (50 : Nat) ≤ 21474836 ∧ (30 : Nat) ≤ 100 ∧
    Direction.motor_direction (Direction.VeerRight VeerOptions.Backward 30) 50 =
      (-50, -50, -35) := by
  refine ⟨by norm_num, by norm_num, ?_⟩
  have h :=
    (C1_motor_direction_table 50 30 VeerOptions.Backward (by norm_num) (by norm_num)).2.2.2.2.1
  rw [h]; decide

/-! ## C2 — the debounce timer -/

/-- C2 counterexample: the claim says an armed `wait_until` (confirm) call
returns `true` as soon as the elapsed ticks are `≥` the threshold; but at
elapsed ticks exactly equal to the threshold (5 elapsed, threshold 5) the
armed call returns `false`, because `main.rs` line 377 tests the strict
`c_us.now().ticks() > us`. -/
theorem C2_wait_until_counterexample :
    ({ started := true, start := 0 } : CounterState).started = true ∧
    5 - (0 : Nat) ≥ 5 ∧
    (wait_until 5 { started := true, start := 0 } 5).1 = false := by decide

/-- C2 amended: for every timer state and threshold `> 0`: a call on an
unarmed timer arms it (recording the current tick) and returns `false`; a
call on an armed timer returns `true` exactly on the first call where the
elapsed ticks are STRICTLY GREATER than the threshold and then disarms the
timer; every armed call with elapsed ticks `≤` the threshold returns `false`
and leaves the timer state unchanged (so a new confirm sequence must
re-arm after a confirmation). -/
theorem C2_wait_until_amended (st : CounterState) (us now : Nat) (hus : 0 < us) :
    (st.started = false →
      wait_until now st us = (false, { started := true, start := now })) ∧
    (st.started = true → now - st.start > us →
      wait_until now st us = (true, { started := false, start := st.start })) ∧
    (st.started = true → ¬ now - st.start > us →
      wait_until now st us = (false, st)) := by
  refine ⟨fun h => ?_, fun h h2 => ?_, fun h h2 => ?_⟩
  · simp [wait_until, h]
  · simp [wait_until, h, h2]
  · simp [wait_until, h, h2]

/-- Witness for C2: arming at tick 7 with threshold 1 returns `false` and
records the start tick. -/
theorem C2_wait_until_amended_witness :
    0 < 1 ∧
    wait_until 7 { started := false, start := 0 } 1 =
      (false, { started := true, start := 7 }) :=
  ⟨by decide, (C2_wait_until_amended { started := false, start := 0 } 1 7 (by decide)).1 rfl⟩

/-! ## C7 — veer percentage validation -/

/-- C7: a veer command fails with the invalid-parameter error
(`Error::InvalidPosition`) for every `u32` percentage outside `[0, 100]` —
on `u32` these are exactly the values above 100, including `101` and
`-1 as u32 = 2^32 - 1` — leaving the wheels untouched; and for `p = 0` and
`p = 100` (indeed any `p ≤ 100`) with a valid speed it reaches actuation and
succeeds. -/
theorem C7_veer_percentage (m : Mikoto) (v : VeerOptions) (p speed : Nat)
    (hm : m.as_constructed) :
    (100 < p → p < 2 ^ 32 →
      m.drive (Direction.VeerRight v p) speed = (Except.error Error.InvalidPosition, m) ∧
      m.drive (Direction.VeerLeft v p) speed = (Except.error Error.InvalidPosition, m)) ∧
    (p ≤ 100 → speed ≤ 100 →
      (m.drive (Direction.VeerRight v p) speed).1 = Except.ok () ∧
      (m.drive (Direction.VeerLeft v p) speed).1 = Except.ok ()) := by
  constructor
  · intro h _
    have hnr : ¬ percentage_ok (Direction.VeerRight v p) := by
      simp [percentage_ok]; omega
    have hnl : ¬ percentage_ok (Direction.VeerLeft v p) := by
      simp [percentage_ok]; omega
    exact ⟨drive_invalid_percentage hnr, drive_invalid_percentage hnl⟩
  · intro hp hs
    obtain ⟨r1, r2, r3⟩ := in_range_motor_veer hp hs _ (Or.inr rfl)
    obtain ⟨l1, l2, l3⟩ := in_range_motor_veer hp hs _ (Or.inl rfl)
    constructor
    · rw [drive_ok_of_in_range hm
        (show percentage_ok (Direction.VeerRight v p) from hp) r1 r2 r3]
    · rw [drive_ok_of_in_range hm
        (show percentage_ok (Direction.VeerLeft v p) from hp) l1 l2 l3]

/-- Witness for C7 at the concrete percentages named by the claim:
`101` and `-1 as u32 = 4294967295` are rejected without touching the
wheels; `0` and `100` succeed (speed 50). -/
theorem C7_veer_percentage_witness :
    mikoto_init.as_constructed ∧
    mikoto_init.drive (Direction.VeerRight VeerOptions.Forward 101) 50 =
      (Except.error Error.InvalidPosition, mikoto_init) ∧
    mikoto_init.drive (Direction.VeerLeft VeerOptions.Forward 4294967295) 50 =
      (Except.error Error.InvalidPosition, mikoto_init) ∧
    (mikoto_init.drive (Direction.VeerRight VeerOptions.Forward 0) 50).1 = Except.ok () ∧
    (mikoto_init.drive (Direction.VeerLeft VeerOptions.Forward 100) 50).1 = Except.ok () := by
  have hm : mikoto_init.as_constructed := ⟨rfl, rfl, rfl, rfl⟩
  refine ⟨hm, ?_, ?_, ?_, ?_⟩
  · exact ((C7_veer_percentage mikoto_init VeerOptions.Forward 101 50 hm).1
      (by norm_num) (by norm_num)).1
  · exact ((C7_veer_percentage mikoto_init VeerOptions.Forward 4294967295 50 hm).1
      (by norm_num) (by norm_num)).2
  · exact ((C7_veer_percentage mikoto_init VeerOptions.Forward 0 50 hm).2
      (by norm_num) (by norm_num)).1
  · exact ((C7_veer_percentage mikoto_init VeerOptions.Forward 100 50 hm).2
      (by norm_num) (by norm_num)).2

/-! ## C8 — wheel commands stay within the actuator range -/

/-- C8: for every direction and every speed, when `drive` returns `Ok` each
of the three wheel commands it applied lies within `[-100, 100]` (and is the
value actually written to the corresponding wheel); and any computed command
outside that range makes `drive` return the invalid-parameter error with the
out-of-range command never applied to its wheel. -/
theorem C8_wheel_command_range (m : Mikoto) (d : Direction) (s : Nat)
    (hm : m.as_constructed) :
    ((m.drive d s).1 = Except.ok () →
      (in_range (d.motor_direction s).1 ∧ in_range (d.motor_direction s).2.1 ∧
        in_range (d.motor_direction s).2.2) ∧
      (m.drive d s).2.front_wheel.position = (d.motor_direction s).1 ∧
      (m.drive d s).2.left_wheel.position = (d.motor_direction s).2.1 ∧
      (m.drive d s).2.right_wheel.position = (d.motor_direction s).2.2) ∧
    (¬ in_range (d.motor_direction s).1 →
      (m.drive d s).1 = Except.error Error.InvalidPosition ∧
      (m.drive d s).2.front_wheel = m.front_wheel) ∧
    (¬ in_range (d.motor_direction s).2.1 →
      (m.drive d s).1 = Except.error Error.InvalidPosition ∧
      (m.drive d s).2.left_wheel = m.left_wheel) ∧
    (¬ in_range (d.motor_direction s).2.2 →
      (m.drive d s).1 = Except.error Error.InvalidPosition ∧
      (m.drive d s).2.right_wheel = m.right_wheel) := by
  by_cases hp : percentage_ok d
  · rw [drive_eq_apply_wheels hp]
    by_cases h1 : in_range (d.motor_direction s).1
    · by_cases h2 : in_range (d.motor_direction s).2.1
      · by_cases h3 : in_range (d.motor_direction s).2.2
        · rw [apply_wheels_ok hm h1 h2 h3]
          exact ⟨fun _ => ⟨⟨h1, h2, h3⟩, rfl, rfl, rfl⟩,
            fun hc => absurd h1 hc, fun hc => absurd h2 hc, fun hc => absurd h3 hc⟩
        · rw [apply_wheels_err_right hm h1 h2 h3]
          exact ⟨fun hc => by simp at hc, fun hc => absurd h1 hc, fun hc => absurd h2 hc,
            fun _ => ⟨rfl, rfl⟩⟩
      · rw [apply_wheels_err_left hm h1 h2]
        exact ⟨fun hc => by simp at hc, fun hc => absurd h1 hc, fun _ => ⟨rfl, rfl⟩,
          fun _ => ⟨rfl, rfl⟩⟩
    · rw [apply_wheels_err_front hm h1]
      exact ⟨fun hc => by simp at hc, fun _ => ⟨rfl, rfl⟩, fun _ => ⟨rfl, rfl⟩,
        fun _ => ⟨rfl, rfl⟩⟩
  · rw [drive_invalid_percentage hp]
    exact ⟨fun hc => by simp at hc, fun _ => ⟨rfl, rfl⟩, fun _ => ⟨rfl, rfl⟩,
      fun _ => ⟨rfl, rfl⟩⟩

/-- Witness for C8: a successful `drive(Forward, 100)` applies in-range
commands, and `drive(Left, 150)` computes an out-of-range left command,
fails, and leaves the left wheel untouched. -/
theorem C8_wheel_command_range_witness :
    mikoto_init.as_constructed ∧
    in_range ((Direction.Forward.motor_direction 100).1) ∧
    (mikoto_init.drive Direction.Forward 100).2.front_wheel.position =
      (Direction.Forward.motor_direction 100).1 ∧
    ¬ in_range ((Direction.Left.motor_direction 150).2.1) ∧
    (mikoto_init.drive Direction.Left 150).1 = Except.error Error.InvalidPosition ∧
    (mikoto_init.drive Direction.Left 150).2.left_wheel = mikoto_init.left_wheel := by
  have hm : mikoto_init.as_constructed := ⟨rfl, rfl, rfl, rfl⟩
  have hok := (C8_wheel_command_range mikoto_init Direction.Forward 100 hm).1 rfl
  have herr := (C8_wheel_command_range mikoto_init Direction.Left 150 hm).2.2.1 (by decide)
  exact ⟨hm, hok.1.1, hok.2.1, by decide, herr.1, herr.2⟩

/-! ## C10 — write order and partial actuation on error -/

/-- C10: `drive` writes the three wheel commands in the fixed order front,
left, right, and returns at the first servo error: when the front command is
out of range nothing is written; when the left command is the first failure
the front wheel keeps its newly applied command and the left and right
wheels are unchanged; when the right command is the first failure the front
and left wheels keep their newly applied commands — no rollback to the
pre-call actuator state happens in any case. -/
theorem C10_drive_write_order (m : Mikoto) (d : Direction) (s : Nat)
    (hm : m.as_constructed) (hp : percentage_ok d) :
    (¬ in_range (d.motor_direction s).1 →
      m.drive d s = (Except.error Error.InvalidPosition, m)) ∧
    (in_range (d.motor_direction s).1 → ¬ in_range (d.motor_direction s).2.1 →
      m.drive d s =
        (Except.error Error.InvalidPosition,
          { m with front_wheel := { m.front_wheel with position := (d.motor_direction s).1 } })) ∧
    (in_range (d.motor_direction s).1 → in_range (d.motor_direction s).2.1 →
        ¬ in_range (d.motor_direction s).2.2 →
      m.drive d s =
        (Except.error Error.InvalidPosition,
          { m with
              front_wheel := { m.front_wheel with position := (d.motor_direction s).1 }
              left_wheel := { m.left_wheel with position := (d.motor_direction s).2.1 } })) := by
  rw [drive_eq_apply_wheels hp]
  exact ⟨fun h1 => apply_wheels_err_front hm h1,
    fun h1 h2 => apply_wheels_err_left hm h1 h2,
    fun h1 h2 h3 => apply_wheels_err_right hm h1 h2 h3⟩

/-- Witness for C10, the claim's own example: `drive(Left, 150)` writes 0 to
the front wheel, then fails on the left wheel command `-150`; the front
wheel keeps the new 0 command and the left and right wheels are unchanged
(no rollback). -/
theorem C10_drive_write_order_witness :
    ¬ in_range ((Direction.Left.motor_direction 150).2.1) ∧
    mikoto_init.drive Direction.Left 150 =
      (Except.error Error.InvalidPosition,
        { mikoto_init with
            front_wheel := { mikoto_init.front_wheel with position := 0 } }) := by
  have hm : mikoto_init.as_constructed := ⟨rfl, rfl, rfl, rfl⟩
  refine ⟨by decide, ?_⟩
  exact (C10_drive_write_order mikoto_init Direction.Left 150 hm trivial).2.1
    (by decide) (by decide)

/-! ## PID and drive_straight helper lemmas -/

theorem apply_limit_bounds {l : ℝ} (hl : 0 ≤ l) (v : ℝ) :
    -l ≤ apply_limit l v ∧ apply_limit l v ≤ l := by
  unfold apply_limit
  exact ⟨le_max_left _ _, max_le (by linarith) (min_le_left _ _)⟩

theorem pid_output_bounds (p : Pid) (h : p.output_limit = 25) (x : ℝ) :
    -25 ≤ p.next_control_output x ∧ p.next_control_output x ≤ 25 := by
  unfold Pid.next_control_output
  rw [h]
  exact apply_limit_bounds (by norm_num) _

theorem f32_as_u32_le {x : ℝ} {b : Nat} (h : x ≤ b) : f32_as_u32 x ≤ b := by
  unfold f32_as_u32
  have h1 : (⌊x⌋ : ℤ) ≤ b := by
    have := Int.floor_le_floor h
    simpa using this
  exact le_trans (min_le_left _ _) (Int.toNat_le.mpr h1)

theorem try_from_not_fb {d : Direction} (hdf : d ≠ Direction.Forward)
    (hdb : d ≠ Direction.Backward) :
    VeerOptions.try_from d = Except.error Error.InvalidPosition := by
  cases d with
  | Forward => exact absurd rfl hdf
  | Backward => exact absurd rfl hdb
  | Left => rfl
  | Right => rfl
  | VeerRight v p => rfl
  | VeerLeft v p => rfl

theorem drive_straight_forward_ok {m : Mikoto} (hm : m.as_constructed) (cy da : ℝ) :
    ∃ m', m.drive_straight cy da Direction.Forward 100 = (Except.ok (), m') ∧
      m'.front_wheel.position = 100 ∧ m'.as_constructed := by
  obtain ⟨ho1, ho2⟩ := pid_output_bounds m.pid (by rw [hm.2.2.2]; rfl) (cy - da)
  unfold Mikoto.drive_straight
  by_cases h1 : m.pid.next_control_output (cy - da) < -0.5
  · rw [if_pos h1]
    simp only [VeerOptions.try_from]
    have hple : (-1 : ℝ) * m.pid.next_control_output (cy - da) ≤ (25 : Nat) := by
      push_cast; linarith
    have hp : 65 + f32_as_u32 (-1 * m.pid.next_control_output (cy - da)) ≤ 100 := by
      have := f32_as_u32_le hple
      omega
    obtain ⟨k1, k2, k3⟩ := in_range_motor_veer (s := 100) hp (by norm_num) _ (Or.inl rfl)
    rw [drive_ok_of_in_range hm (show percentage_ok (Direction.VeerLeft _ _) from hp) k1 k2 k3]
    refine ⟨_, rfl, ?_, ?_⟩
    · simp [Direction.motor_direction, u32_as_i32, VeerOptions.as_i32]
      decide
    · exact ⟨hm.1, hm.2.1, hm.2.2.1, hm.2.2.2⟩
  · rw [if_neg h1]
    by_cases h2 : m.pid.next_control_output (cy - da) > 0.5
    · rw [if_pos h2]
      simp only [VeerOptions.try_from]
      have hple : m.pid.next_control_output (cy - da) ≤ (25 : Nat) := by
        push_cast; linarith
      have hp : 75 + f32_as_u32 (m.pid.next_control_output (cy - da)) ≤ 100 := by
        have := f32_as_u32_le hple
        omega
      obtain ⟨k1, k2, k3⟩ := in_range_motor_veer (s := 100) hp (by norm_num) _ (Or.inr rfl)
      rw [drive_ok_of_in_range hm (show percentage_ok (Direction.VeerRight _ _) from hp) k1 k2 k3]
      refine ⟨_, rfl, ?_, ?_⟩
      · simp [Direction.motor_direction, u32_as_i32, VeerOptions.as_i32]
        decide
      · exact ⟨hm.1, hm.2.1, hm.2.2.1, hm.2.2.2⟩
    · rw [if_neg h2]
      obtain ⟨k1, k2, k3⟩ := in_range_motor_basic (s := 100) (by norm_num) Direction.Forward (Or.inl rfl)
      rw [drive_ok_of_in_range hm (d := Direction.Forward) (s := 100) trivial k1 k2 k3]
      refine ⟨_, rfl, ?_, ?_⟩
      · simp [Direction.motor_direction, u32_as_i32]
      · exact ⟨hm.1, hm.2.1, hm.2.2.1, hm.2.2.2⟩

/-! ## C6 — drive_straight base-direction validation -/

/-- C6 counterexample: with zero heading error the PID output is `0`, inside
the `±0.5` dead-band, so `drive_straight` with base direction `Left` — not
in {Forward, Backward} — takes the third branch of `lib.rs` lines 226-229,
drives the wheels (left wheel written to `-10`) and returns `Ok`, instead of
failing with the invalid-parameter error and never actuating. -/
theorem C6_drive_straight_counterexample :
    (mikoto_init.drive_straight 0 0 Direction.Left 10).1 = Except.ok () ∧
    (mikoto_init.drive_straight 0 0 Direction.Left 10).2.left_wheel.position = -10 := by
  have hout : mikoto_init.pid.next_control_output (0 - 0) = 0 := by
    show mikoto_pid.next_control_output (0 - 0) = 0
    unfold Pid.next_control_output apply_limit mikoto_pid
    norm_num
  unfold Mikoto.drive_straight
  rw [hout]
  rw [if_neg (by norm_num), if_neg (by norm_num)]
  rw [drive_ok_of_in_range (d := Direction.Left) (s := 10) ⟨rfl, rfl, rfl, rfl⟩ trivial
    (by decide) (by decide) (by decide)]
  exact ⟨rfl, by decide⟩

/-- C6 amended: `drive_straight` with a base direction outside
{Forward, Backward} fails with the invalid-parameter error without touching
the wheels only when the PID correction output lies outside the `±0.5`
dead-band (then `VeerOptions::try_from` rejects the direction before any
actuation); when the output is inside the dead-band, the base direction is
driven directly, actuating the wheels. -/
theorem C6_drive_straight_invalid_base (m : Mikoto) (cy da : ℝ) (d : Direction) (s : Nat)
    (hdf : d ≠ Direction.Forward) (hdb : d ≠ Direction.Backward)
    (hout : m.pid.next_control_output (cy - da) < -0.5 ∨
      0.5 < m.pid.next_control_output (cy - da)) :
    m.drive_straight cy da d s = (Except.error Error.InvalidPosition, m) := by
  have hd := try_from_not_fb hdf hdb
  unfold Mikoto.drive_straight
  rcases hout with h | h
  · rw [if_pos h, hd]
  · rw [if_neg (by linarith), if_pos h, hd]

/-- Witness for C6: with heading error 1 rad the PID output saturates at
`-25`, outside the dead-band, and `drive_straight` with base `Left`
fails with the invalid-parameter error leaving the robot unchanged. -/
theorem C6_drive_straight_invalid_base_witness :
    Direction.Left ≠ Direction.Forward ∧ Direction.Left ≠ Direction.Backward ∧
    mikoto_init.pid.next_control_output (1 - 0) < -0.5 ∧
    mikoto_init.drive_straight 1 0 Direction.Left 10 =
      (Except.error Error.InvalidPosition, mikoto_init) := by
  have hpi := Real.pi_pos
  have hpi4 := Real.pi_le_four
  have hdiv : (25 : ℝ) ≤ 1800 / Real.pi := by
    rw [le_div_iff₀ hpi]
    nlinarith
  have hout : mikoto_init.pid.next_control_output (1 - 0) = -25 := by
    show mikoto_pid.next_control_output (1 - 0) = -25
    unfold Pid.next_control_output apply_limit mikoto_pid
    have h1 : (0 - (1 - 0)) * (10 * (180 / Real.pi)) = -(1800 / Real.pi) := by
      ring
    rw [h1]
    have h2 : min (25 : ℝ) (-(1800 / Real.pi)) = -(1800 / Real.pi) := by
      apply min_eq_right
      nlinarith
    rw [h2]
    have h3 : max (-(25 : ℝ)) (-(1800 / Real.pi)) = -25 := by
      apply max_eq_left
      linarith
    rw [h3]
    norm_num
  refine ⟨by decide, by decide, by rw [hout]; norm_num, ?_⟩
  exact C6_drive_straight_invalid_base mikoto_init 1 0 Direction.Left 10
    (by decide) (by decide) (Or.inl (by rw [hout]; norm_num))

/-! ## Mission-loop helper lemmas -/

theorem isSome_ite {α : Type} {c : Prop} [Decidable c] {a b : Option α}
    (ha : a.isSome) (hb : b.isSome) : (if c then a else b).isSome := by
  split
  · exact ha
  · exact hb

theorem drive_basic_ok {m : Mikoto} (hm : m.as_constructed) {d : Direction} {s : Nat}
    (hd : d = Direction.Forward ∨ d = Direction.Backward ∨ d = Direction.Left ∨
      d = Direction.Right)
    (hs : s ≤ 100) :
    m.drive d s =
      (Except.ok (),
        { m with
            front_wheel := { m.front_wheel with position := (d.motor_direction s).1 }
            left_wheel := { m.left_wheel with position := (d.motor_direction s).2.1 }
            right_wheel := { m.right_wheel with position := (d.motor_direction s).2.2 } }) := by
  obtain ⟨k1, k2, k3⟩ := in_range_motor_basic hs d hd
  have hp : percentage_ok d := by rcases hd with rfl | rfl | rfl | rfl <;> trivial
  exact drive_ok_of_in_range hm hp k1 k2 k3

theorem step_wait_for_button_some {st : AppState} (hm : st.mikoto.as_constructed) :
    (step_wait_for_button st).isSome := by
  unfold step_wait_for_button
  rw [stop_ok hm]
  rfl

theorem step_approach_wall_some (inp : Inputs) (st : AppState)
    (hm : st.mikoto.as_constructed) :
    (step_approach_wall inp st).isSome := by
  simp only [step_approach_wall]
  have hmik : (if to_degrees inp.pitch ≥ 60 then { st with task := Task.ClimbUp }
      else st).mikoto = st.mikoto := by
    split <;> rfl
  rw [hmik]
  apply isSome_ite
  · obtain ⟨m', hEq, -, -⟩ := drive_straight_forward_ok hm inp.yaw
      (to_radians (if to_degrees inp.pitch ≥ 60 then { st with task := Task.ClimbUp }
        else st).offset_angle)
    rw [hEq]
    rfl
  · rw [drive_basic_ok hm (Or.inl rfl) (by norm_num)]
    rfl

theorem step_climb_up_some (inp : Inputs) (st : AppState)
    (hm : st.mikoto.as_constructed) :
    (step_climb_up inp st).isSome := by
  simp only [step_climb_up]
  rw [drive_basic_ok hm (Or.inl rfl) (by norm_num)]
  apply isSome_ite <;> rfl

theorem step_climb_over_some (inp : Inputs) (st : AppState)
    (hm : st.mikoto.as_constructed) :
    (step_climb_over inp st).isSome := by
  simp only [step_climb_over]
  by_cases hc : to_degrees inp.pitch ≤ -45
  · rw [if_pos hc, drive_basic_ok hm (Or.inl rfl) (by norm_num)]
    apply isSome_ite <;> rfl
  · rw [if_neg hc, drive_basic_ok hm (Or.inl rfl) (by norm_num)]
    apply isSome_ite <;> rfl

theorem step_climb_down_some (inp : Inputs) (st : AppState)
    (hm : st.mikoto.as_constructed) :
    (step_climb_down inp st).isSome := by
  simp only [step_climb_down]
  rw [drive_basic_ok hm (Or.inl rfl) (by norm_num)]
  apply isSome_ite <;> rfl

theorem step_find_pole_some (inp : Inputs) (st : AppState)
    (hm : st.mikoto.as_constructed) :
    (step_find_pole inp st).isSome := by
  simp only [step_find_pole]
  cases hs : st.scan
  · rw [stop_ok hm]
    apply isSome_ite
    · apply isSome_ite <;> rfl
    · rfl
  · rw [drive_basic_ok hm (Or.inr (Or.inr (Or.inl rfl))) (by norm_num)]
    apply isSome_ite
    · rfl
    · apply isSome_ite <;> rfl
  · rw [drive_basic_ok hm (Or.inr (Or.inr (Or.inr rfl))) (by norm_num)]
    apply isSome_ite
    · rfl
    · apply isSome_ite <;> rfl

theorem step_approach_pole_some (inp : Inputs) (st : AppState)
    (hm : st.mikoto.as_constructed) :
    (step_approach_pole inp st).isSome := by
  obtain ⟨m', hEq, -, -⟩ := drive_straight_forward_ok hm inp.yaw
    (to_radians st.offset_angle)
  simp only [step_approach_pole]
  rw [stop_ok hm, hEq]
  repeat' split
  all_goals first
    | rfl
    | simp_all

/-! ## C3 — fate of a failing drive call in the control loop -/

/-- C3 counterexample: a mission tick whose drive call returns an error IS
fatal.  In the `WaitForButton` phase over a robot whose front-wheel input
range excludes 0, the phase's required drive call (`mikoto.stop()`) returns
`Err(InvalidPosition)`, and the loop's `.unwrap()` (`main.rs` line 196)
panics: the tick aborts (`none`) instead of merely skipping actuation and
continuing. -/
theorem C3_drive_failure_fatal_counterexample :
    (bad_wheel_mikoto.stop).1 = Except.error Error.InvalidPosition ∧
    step { yaw := 0, pitch := 0, roll := 0, distance := 0, now := 0 } bad_wheel_state =
      none :=
  ⟨rfl, rfl⟩

/-- C3 amended: every drive result in the mission loop is unwrapped, so a
tick whose drive call fails panics (aborts the process) rather than skipping
actuation; however, with the wheels as constructed by `Mikoto::new` (input
ranges spanning `[-100, 100]`) no drive call issued by any phase on any
sensor input can fail, so the loop never panics — and in particular the
state machine never advances phase on a tick whose drive call failed,
because no such tick completes. -/
theorem C3_step_never_panics (inp : Inputs) (st : AppState)
    (hm : st.mikoto.as_constructed) :
    (step inp st).isSome := by
  unfold step
  cases h : st.task
  · exact step_wait_for_button_some hm
  · exact step_approach_wall_some inp st hm
  · exact step_climb_up_some inp st hm
  · exact step_climb_over_some inp st hm
  · exact step_climb_down_some inp st hm
  · exact step_find_pole_some inp st hm
  · exact step_approach_pole_some inp st hm

/-- Witness for C3 on a concrete tick of the constructed robot. -/
theorem C3_step_never_panics_witness :
    (step { yaw := 0, pitch := 0, roll := 0, distance := 0, now := 0 }
      { task := Task.WaitForButton, mikoto := mikoto_init
        counter := { started := false, start := 0 }, offset_angle := 0
        stop_pole_base := false, pole_zero_pitch := 0, pole_zero_roll := 0
        scan_pause := false, scan := Scan.Stop }).isSome :=
  C3_step_never_panics _ _ ⟨rfl, rfl, rfl, rfl⟩

/-! ## C9 — debouncing of the ApproachPole stop signals -/

/-- C9 counterexample: the roll deviation is NOT debounced.  On the very
first tick on which the roll deviation from the zero-reference appears
(debounce timer unarmed, pitch level, pole not yet in range), the code sets
`stop_pole_base` immediately (`main.rs` lines 339-342) and stops the wheels
on that same tick — no debounce window confirms the roll signal before it
triggers the stop, contradicting the claim that each deviation-based signal
is individually debounced before it can trigger the stop. -/
theorem C9_roll_not_debounced_counterexample :
    |to_degrees 1 - approach_pole_state.pole_zero_roll| ≥ 3 ∧
    approach_pole_state.counter.started = false ∧
    step { yaw := 0, pitch := 0, roll := 1, distance := 1000, now := 0 }
      approach_pole_state =
      some { approach_pole_state with
              mikoto := { rolling_mikoto with
                front_wheel := { rolling_mikoto.front_wheel with position := 0 }
                left_wheel := { rolling_mikoto.left_wheel with position := 0 }
                right_wheel := { rolling_mikoto.right_wheel with position := 0 } }
              counter := { started := true, start := 0 }
              stop_pole_base := true } := by
  have hpi := Real.pi_pos
  have hpi4 := Real.pi_le_four
  have hroll : |to_degrees 1 - approach_pole_state.pole_zero_roll| ≥ 3 := by
    show |to_degrees 1 - (0 : ℝ)| ≥ 3
    rw [to_degrees, one_mul, sub_zero, abs_of_pos (by positivity)]
    rw [ge_iff_le, le_div_iff₀ hpi]
    nlinarith
  refine ⟨hroll, rfl, ?_⟩
  have hm : rolling_mikoto.as_constructed := ⟨rfl, rfl, rfl, rfl⟩
  have hstop := stop_ok hm
  have hroll2 : (3 : ℝ) ≤ |to_degrees 1| := by
    rw [to_degrees, one_mul, abs_of_pos (by positivity), le_div_iff₀ hpi]
    nlinarith
  have hpitch : ¬ (2 : ℝ) < to_degrees 0 := by
    rw [to_degrees, zero_mul]
    norm_num
  have hfound : ¬ (1000 : Nat) < 150 := by norm_num
  show step_approach_pole _ _ = _
  simp only [step_approach_pole]
  simp [hroll2, hpitch, hfound, hstop, wait_until, approach_pole_state]

/-- C9 amended: in the `ApproachPole` phase, with the pole not in range and
no stop pending, the stop signals behave asymmetrically: (a) the pitch
deviation is debounced — on its first tick it only arms the 250 ms timer and
the robot keeps driving (front wheel at 100, no stop flag, no phase change);
(b) the pitch debounce has explicit rollback — if the pitch deviation is
absent while the timer is armed, the timer is cancelled and the robot keeps
driving; (c) the roll deviation is NOT debounced — on its first tick (timer
unarmed) it sets the stop flag and stops the wheels immediately. -/
theorem C9_pitch_debounced_roll_immediate (inp : Inputs) (st : AppState)
    (hm : st.mikoto.as_constructed)
    (hfound : ¬ inp.distance < 150)
    (hspb : st.stop_pole_base = false) :
    (to_degrees inp.pitch > st.pole_zero_pitch + 2 → st.counter.started = false →
        ¬ |to_degrees inp.roll - st.pole_zero_roll| ≥ 3 →
      ∃ st', step_approach_pole inp st = some st' ∧
        st'.counter = { started := true, start := inp.now } ∧
        st'.stop_pole_base = false ∧ st'.task = st.task ∧
        st'.mikoto.front_wheel.position = 100) ∧
    (¬ to_degrees inp.pitch > st.pole_zero_pitch + 2 → st.counter.started = true →
        ¬ |to_degrees inp.roll - st.pole_zero_roll| ≥ 3 →
      ∃ st', step_approach_pole inp st = some st' ∧
        st'.counter.started = false ∧
        st'.stop_pole_base = false ∧ st'.task = st.task ∧
        st'.mikoto.front_wheel.position = 100) ∧
    (|to_degrees inp.roll - st.pole_zero_roll| ≥ 3 → st.counter.started = false →
      ∃ st', step_approach_pole inp st = some st' ∧
        st'.stop_pole_base = true ∧
        st'.mikoto.front_wheel.position = 0 ∧ st'.mikoto.left_wheel.position = 0 ∧
        st'.mikoto.right_wheel.position = 0) := by
  obtain ⟨m', hEq, hfront, -⟩ := drive_straight_forward_ok hm inp.yaw
    (to_radians st.offset_angle)
  have hstop := stop_ok hm
  refine ⟨?_, ?_, ?_⟩
  · intro ha hcs hnr
    have hw : wait_until inp.now st.counter 250000 =
        (false, { started := true, start := inp.now }) := by
      simp [wait_until, hcs]
    have hstep : step_approach_pole inp st =
        some { st with
                mikoto := m'
                counter := { started := true, start := inp.now }
                stop_pole_base := false } := by
      simp only [step_approach_pole]
      simp [ha, hnr, hfound, hspb, hw, hEq]
    exact ⟨_, hstep, rfl, rfl, rfl, hfront⟩
  · intro hb hcs hnr
    have hstep : step_approach_pole inp st =
        some { st with
                mikoto := m'
                counter := { started := false, start := st.counter.start }
                stop_pole_base := false } := by
      simp only [step_approach_pole]
      simp [hb, hcs, hnr, hfound, hspb, hEq]
    exact ⟨_, hstep, rfl, rfl, rfl, hfront⟩
  · intro hc hcs
    by_cases hp : to_degrees inp.pitch > st.pole_zero_pitch + 2
    · have hw : wait_until inp.now st.counter 250000 =
          (false, { started := true, start := inp.now }) := by
        simp [wait_until, hcs]
      have hw2 : wait_until inp.now { started := true, start := inp.now } 250000 =
          (false, { started := true, start := inp.now }) := by
        simp [wait_until]
      have hstep : step_approach_pole inp st =
          some { st with
                  mikoto := { st.mikoto with
                    front_wheel := { st.mikoto.front_wheel with position := 0 }
                    left_wheel := { st.mikoto.left_wheel with position := 0 }
                    right_wheel := { st.mikoto.right_wheel with position := 0 } }
                  counter := { started := true, start := inp.now }
                  stop_pole_base := true } := by
        simp only [step_approach_pole]
        simp [hc, hp, hfound, hspb, hw, hw2, hstop]
      exact ⟨_, hstep, rfl, rfl, rfl, rfl⟩
    · have hw : wait_until inp.now st.counter 250000 =
          (false, { started := true, start := inp.now }) := by
        simp [wait_until, hcs]
      have hstep : step_approach_pole inp st =
          some { st with
                  mikoto := { st.mikoto with
                    front_wheel := { st.mikoto.front_wheel with position := 0 }
                    left_wheel := { st.mikoto.left_wheel with position := 0 }
                    right_wheel := { st.mikoto.right_wheel with position := 0 } }
                  counter := { started := true, start := inp.now }
                  stop_pole_base := true } := by
        simp only [step_approach_pole]
        simp [hc, hp, hcs, hfound, hspb, hw, hstop]
      exact ⟨_, hstep, rfl, rfl, rfl, rfl⟩

/-- Witness for C9: a first pitch-deviation tick arms the timer without
stopping the robot. -/
theorem C9_pitch_debounced_roll_immediate_witness :
    (¬ (1000 : Nat) < 150) ∧
    approach_pole_state.stop_pole_base = false ∧
    to_degrees 1 > approach_pole_state.pole_zero_pitch + 2 ∧
    (step_approach_pole { yaw := 0, pitch := 1, roll := 0, distance := 1000, now := 5 }
      approach_pole_state).isSome := by
  have hpi := Real.pi_pos
  have hpi4 := Real.pi_le_four
  have hfound : ¬ (1000 : Nat) < 150 := by norm_num
  have hpitch : to_degrees 1 > approach_pole_state.pole_zero_pitch + 2 := by
    show to_degrees 1 > (0 : ℝ) + 2
    rw [to_degrees, one_mul]
    rw [gt_iff_lt, zero_add, lt_div_iff₀ hpi]
    nlinarith
  have hroll : ¬ |to_degrees (0 : ℝ) - approach_pole_state.pole_zero_roll| ≥ 3 := by
    show ¬ |to_degrees (0 : ℝ) - (0 : ℝ)| ≥ 3
    rw [to_degrees, zero_mul, sub_zero, abs_zero]
    norm_num
  obtain ⟨st', hstep, -⟩ :=
    (C9_pitch_debounced_roll_immediate
      { yaw := 0, pitch := 1, roll := 0, distance := 1000, now := 5 }
      approach_pole_state ⟨rfl, rfl, rfl, rfl⟩ hfound rfl).1 hpitch rfl hroll
  exact ⟨hfound, rfl, hpitch, by rw [hstep]; rfl⟩

/-! ## Geometric-model helper lemmas -/

theorem corner_angle_pos : 0 < CORNER_ANGLE := by
  rw [CORNER_ANGLE]
  have h := Real.arctan_strictMono
    (show (0 : ℝ) < COURSE_WIDTH / 2 / COURSE_LENGTH by
      norm_num [COURSE_WIDTH, COURSE_LENGTH])
  rwa [Real.arctan_zero] at h

theorem corner_angle_lt : CORNER_ANGLE < Real.pi / 4 := by
  rw [CORNER_ANGLE]
  have h := Real.arctan_strictMono
    (show (COURSE_WIDTH / 2 / COURSE_LENGTH : ℝ) < 1 by
      norm_num [COURSE_WIDTH, COURSE_LENGTH])
  rwa [Real.arctan_one] at h

theorem ramp_angle_pos : 0 < RAMP_ANGLE := by
  rw [RAMP_ANGLE]
  have h := Real.arctan_lt_pi_div_two (RAMP_LENGTH / (COURSE_WIDTH / 2 - RAMP_WIDTH))
  linarith

theorem ramp_angle_lt : RAMP_ANGLE < Real.pi / 4 := by
  rw [RAMP_ANGLE]
  have h := Real.arctan_strictMono
    (show (1 : ℝ) < RAMP_LENGTH / (COURSE_WIDTH / 2 - RAMP_WIDTH) by
      norm_num [RAMP_LENGTH, COURSE_WIDTH, RAMP_WIDTH])
  rw [Real.arctan_one] at h
  linarith

theorem corner_branches_eq : rear_branch CORNER_ANGLE = side_branch CORNER_ANGLE := by
  have hc : CORNER_ANGLE = Real.arctan (1185 / 2100) := by
    rw [CORNER_ANGLE]
    norm_num [COURSE_WIDTH, COURSE_LENGTH]
  rw [rear_branch, side_branch, Real.cos_pi_div_two_sub, hc,
    Real.cos_arctan, Real.sin_arctan]
  have hsq : Real.sqrt (1 + (1185 / 2100 : ℝ) ^ 2) ≠ 0 := by positivity
  rw [show (COURSE_WIDTH : ℝ) = 2370 from rfl, show (COURSE_LENGTH : ℝ) = 2100 from rfl]
  field_simp
  ring

theorem side_ramp_gap :
    (318 : ℝ) ≤ side_branch RAMP_ANGLE - ramp_branch RAMP_ANGLE := by
  have hpi := Real.pi_pos
  have hr0 := ramp_angle_pos
  have hrlt := ramp_angle_lt
  have hsin : 0 < Real.sin RAMP_ANGLE :=
    Real.sin_pos_of_pos_of_lt_pi hr0 (by linarith)
  have hsin1 : Real.sin RAMP_ANGLE ≤ 1 := Real.sin_le_one _
  rw [side_branch, ramp_branch, Real.cos_pi_div_two_sub]
  have hgap : COURSE_WIDTH / 2 / Real.sin RAMP_ANGLE - TOF_DIST_FROM_BACK -
      ((COURSE_WIDTH / 2 - RAMP_WIDTH) / Real.sin RAMP_ANGLE - TOF_DIST_FROM_BACK) =
      318 / Real.sin RAMP_ANGLE := by
    rw [show (RAMP_WIDTH : ℝ) = 318 from rfl]
    field_simp
    ring
  rw [hgap, le_div_iff₀ hsin]
  nlinarith

/-! ## C4 — sign symmetry of the geometric distance model -/

/-- C4 counterexample: `expected_dist` is NOT symmetric in the sign of the
heading.  At heading `π/3` (beyond the ramp angle) the first test of
`main.rs` line 405 compares the SIGNED angle with `RAMP_ANGLE`, so `+π/3`
selects the ramp branch while `-π/3` falls through to the side-border
branch, and the two values differ. -/
theorem C4_expected_dist_asymmetric_counterexample :
    expected_dist (-(Real.pi / 3)) ≠ expected_dist (Real.pi / 3) := by
  have hpi := Real.pi_pos
  have h1 : Real.pi / 4 < Real.pi / 3 := by linarith
  have hramp : RAMP_ANGLE < Real.pi / 3 := lt_trans ramp_angle_lt h1
  have hcorner : CORNER_ANGLE < Real.pi / 3 := lt_trans corner_angle_lt h1
  have habs : |(-(Real.pi / 3))| = Real.pi / 3 := by
    rw [abs_neg, abs_of_pos (by positivity)]
  have habs2 : |Real.pi / 3| = Real.pi / 3 := abs_of_pos (by positivity)
  rw [expected_dist, expected_dist]
  rw [if_pos (show Real.pi / 3 > RAMP_ANGLE from hramp)]
  rw [if_neg (show ¬ -(Real.pi / 3) > RAMP_ANGLE from by
    have := ramp_angle_pos; intro hcon; nlinarith)]
  rw [habs, habs2]
  rw [if_pos (show Real.pi / 3 > CORNER_ANGLE from hcorner)]
  rw [side_branch, ramp_branch, Real.cos_pi_div_two_sub]
  have hsin : 0 < Real.sin (Real.pi / 3) :=
    Real.sin_pos_of_pos_of_lt_pi (by positivity) (by linarith)
  intro h
  have h2 : COURSE_WIDTH / 2 / Real.sin (Real.pi / 3) =
      (COURSE_WIDTH / 2 - RAMP_WIDTH) / Real.sin (Real.pi / 3) := by linarith
  rw [div_eq_div_iff hsin.ne' hsin.ne'] at h2
  have h3 : COURSE_WIDTH / 2 = COURSE_WIDTH / 2 - RAMP_WIDTH :=
    mul_right_cancel₀ hsin.ne' h2
  rw [show (RAMP_WIDTH : ℝ) = 318 from rfl] at h3
  linarith

/-- C4 amended: `expected_dist` is symmetric in the sign of the heading
exactly on the headings up to the ramp angle: for `|a| ≤ RAMP_ANGLE` the
same line-of-sight branch is selected for `a` and `-a` and the same distance
returned; beyond the ramp angle the positive heading selects the ramp branch
while the negative one selects the side-border branch. -/
theorem C4_expected_dist_symmetric_below_ramp (a : ℝ) (h : |a| ≤ RAMP_ANGLE) :
    expected_dist (-a) = expected_dist a := by
  have h1 : ¬ a > RAMP_ANGLE := not_lt.mpr (le_trans (le_abs_self a) h)
  have h2 : ¬ -a > RAMP_ANGLE := not_lt.mpr (le_trans (neg_le_abs a) h)
  rw [expected_dist, expected_dist, if_neg h2, if_neg h1, abs_neg]

/-- Witness for C4 at heading 0. -/
theorem C4_expected_dist_symmetric_below_ramp_witness :
    |(0 : ℝ)| ≤ RAMP_ANGLE ∧ expected_dist (-0) = expected_dist 0 :=
  ⟨by rw [abs_zero]; exact le_of_lt ramp_angle_pos,
   C4_expected_dist_symmetric_below_ramp 0 (by rw [abs_zero]; exact le_of_lt ramp_angle_pos)⟩

/-! ## C5 — continuity at the regime boundaries -/

/-- C5 counterexample: the two branches adjacent at the ramp boundary do NOT
agree within `1e-3` there: at the ramp angle the side-border branch exceeds
the ramp branch by `RAMP_WIDTH / sin(RAMP_ANGLE) ≥ 318` mm, so the claim
that `expected_range` is continuous within `1e-3` at BOTH regime boundary
angles fails. -/
theorem C5_ramp_boundary_discontinuous_counterexample :
    ¬ (|rear_branch CORNER_ANGLE - side_branch CORNER_ANGLE| ≤ 1e-3 ∧
       |side_branch RAMP_ANGLE - ramp_branch RAMP_ANGLE| ≤ 1e-3) := by
  rintro ⟨-, h⟩
  have hgap := side_ramp_gap
  rw [abs_of_nonneg (by linarith)] at h
  norm_num at h
  linarith

/-- C5 amended: `expected_range` is continuous (in fact exactly equal across
branches) at the corner-angle boundary, but discontinuous at the ramp-angle
boundary, where the adjacent branch values differ by at least
`RAMP_WIDTH = 318` mm. -/
theorem C5_boundary_continuity_amended :
    rear_branch CORNER_ANGLE = side_branch CORNER_ANGLE ∧
    (318 : ℝ) ≤ side_branch RAMP_ANGLE - ramp_branch RAMP_ANGLE :=
  ⟨corner_branches_eq, side_ramp_gap⟩

end MikotoBot
